import Mathlib

/-!
Verification of the Amazon price-scraper core (main.py) via a shallow
embedding.  The browser collaborator (Selenium) is modelled as data: a
product-container element carries the results of the fixed selector
lookups the code performs, and the pagination driver is a function from
the page counter to that page's containers plus a has-next signal.
Python strings are Lean Strings; Python float values are modelled as
rationals, which is faithful for the decimal price strings and bounds
this program manipulates.
-/

namespace Scraper

/-- Models Python str.strip: drop whitespace from both ends. -/
def pyStrip (s : String) : String :=
  String.mk (((s.toList.dropWhile Char.isWhitespace).reverse.dropWhile Char.isWhitespace).reverse)

/-- Models Python str.lower for the ASCII range this program meets. -/
def pyLower (s : String) : String :=
  String.mk (s.toList.map Char.toLower)

/-- Models Python s.replace of a comma by the empty string: every comma is deleted. -/
def removeCommas (s : String) : String :=
  String.mk (s.toList.filter (fun c => c ≠ ','))

/-- Does the second list occur at the head of the first? -/
def leadsWith : List Char → List Char → Bool
  | _, [] => true
  | [], _ :: _ => false
  | a :: as, b :: bs => a = b && leadsWith as bs

/-- Is sub somewhere inside l?  (Python membership test on str.) -/
def containsChars (l sub : List Char) : Bool :=
  match l with
  | [] => sub.isEmpty
  | _ :: rest => leadsWith l sub || containsChars rest sub

/-- Models the Python substring test sub in s. -/
def strContains (s sub : String) : Bool :=
  containsChars s.toList sub.toList

/-- Accumulate decimal digits into a natural number. -/
def digitsToNat (cs : List Char) : Nat :=
  cs.foldl (fun n c => 10 * n + (c.toNat - '0'.toNat)) 0

/-- Parse an unsigned decimal literal: digits with an optional single dot,
at least one digit overall, nothing after the fraction digits. -/
def parseUnsignedDec (cs : List Char) : Option ℚ :=
  let intPart := cs.takeWhile Char.isDigit
  let rest := cs.dropWhile Char.isDigit
  match rest with
  | [] => if intPart.isEmpty then none else some (digitsToNat intPart : ℚ)
  | '.' :: frac =>
    if frac.all Char.isDigit && !(intPart.isEmpty && frac.isEmpty) then
      some ((digitsToNat intPart : ℚ) + (digitsToNat frac : ℚ) / ((10 : ℚ) ^ frac.length))
    else none
  | _ => none

/-- Models Python float applied to a string, on the decimal forms this
program produces: surrounding whitespace, an optional sign, digits with an
optional fractional part.  Exponents and special forms are outside the
model; a string outside this shape raises ValueError, modelled as none. -/
def pyFloat? (s : String) : Option ℚ :=
  match (pyStrip s).toList with
  | '+' :: rest => parseUnsignedDec rest
  | '-' :: rest => (parseUnsignedDec rest).map (fun q => -q)
  | rest => parseUnsignedDec rest

/-- One extracted listing: the Product dataclass of main.py. -/
structure Product where
  title : String
  url : String
  price : String
  currency : String
  page : Nat
  position : Nat
deriving DecidableEq, Repr

/-- A DOM element handle reduced to the one capability the price code
uses on sub-elements: its text content. -/
structure Elem where
  text : String
deriving DecidableEq, Repr

/-- An anchor element handle: get_attribute of href may be absent. -/
structure LinkElem where
  href : Option String
deriving DecidableEq, Repr

/-- The price container span (class a-price) with the four class-name
lookups _parse_price_block performs inside it; none models
NoSuchElementException for that lookup. -/
structure PriceContainer where
  offscreen : Option Elem
  wholePart : Option Elem
  fractionPart : Option Elem
  symbolElem : Option Elem
deriving DecidableEq, Repr

/-- A product-container element with the results of every fixed selector
lookup the scraper performs on it, plus its full visible text. -/
structure ProductElement where
  priceContainer : Option PriceContainer
  fullText : String
  titleH2Span : Option Elem
  titleH2 : Option Elem
  linkStyled : Option LinkElem
  linkNormal : Option LinkElem
deriving DecidableEq, Repr

/-- Is this character one of the currency glyphs of the regex class? -/
def isPriceGlyph (c : Char) : Bool :=
  c = '€' || c = '$' || c = '£'

/-- Is this character matched by the regex atom for digits or commas? -/
def isDigitOrComma (c : Char) : Bool :=
  c.isDigit || c = ','

/-- Match the price regex anchored at the head of the character list:
a currency glyph, at most one whitespace, a digit, a run of digits or
commas, a dot, exactly two digits.  Returns the glyph and the numeric
group.  The run is maximal, which agrees with the backtracking engine:
a shorter run would have to be followed by a dot, yet every character it
gives back is a digit or a comma. -/
def matchPriceAt : List Char → Option (Char × List Char)
  | [] => none
  | c :: rest =>
    if isPriceGlyph c then
      let afterWs := match rest with
        | w :: tl => if w.isWhitespace then tl else w :: tl
        | [] => []
      match afterWs with
      | d :: tl =>
        if d.isDigit then
          let run := tl.takeWhile isDigitOrComma
          let rest3 := tl.dropWhile isDigitOrComma
          match rest3 with
          | '.' :: a :: b :: _ =>
            if a.isDigit && b.isDigit then
              some (c, d :: (run ++ '.' :: a :: b :: []))
            else none
          | _ => none
        else none
      | [] => none
    else none

/-- Models re.search for the price pattern: try every start position from
the left, return the first match. -/
def searchPrice : List Char → Option (Char × List Char)
  | [] => none
  | c :: rest =>
    match matchPriceAt (c :: rest) with
    | some r => some r
    | none => searchPrice rest

/-- The offscreen lookup of _parse_price_block: the stripped text of the
a-offscreen child, with NoSuchElementException giving the empty string. -/
def offscreenTextOf (pc : PriceContainer) : String :=
  match pc.offscreen with
  | some el => pyStrip el.text
  | none => ""

/-- The currency-symbol lookup of _parse_price_block: the stripped text of
the a-price-symbol child, with NoSuchElementException giving the empty
string. -/
def symbolTextOf (pc : PriceContainer) : String :=
  match pc.symbolElem with
  | some s => pyStrip s.text
  | none => ""

/-- Models _parse_price_block of main.py.  Returns some (price, currency)
where Python returns a pair of strings, none where it returns None, None. -/
def parsePriceBlock (e : ProductElement) : Option (String × String) :=
  match e.priceContainer with
  | none => none
  | some pc =>
    match (offscreenTextOf pc).toList with
    | c :: restChars =>
      -- currency is the first character, the remainder is stripped and de-commaed
      some (removeCommas (pyStrip (String.mk restChars)), String.mk (c :: []))
    | [] =>
      match pc.wholePart, pc.fractionPart with
      | some w, some f =>
        let priceValue := pyStrip (removeCommas w.text) ++ "." ++ pyStrip f.text
        let currency := symbolTextOf pc
        if priceValue ≠ "" ∧ currency ≠ "" then
          some (priceValue, currency)
        else
          -- final fallback: regex over the container's full visible text
          match searchPrice e.fullText.toList with
          | some (glyph, numeric) =>
            some (removeCommas (String.mk numeric), String.mk (glyph :: []))
          | none => none
      | _, _ =>
        -- if either part is missing, price is treated as unavailable
        none

/-- Models Python truthiness of an optional string: None and the empty
string are falsy. -/
def optStrTruthy : Option String → Bool
  | none => false
  | some s => s ≠ ""

/-- Outcome of handling one product element inside the scrape loop of
_scrape_products_on_current_page: a record, a silent continue, or a
caught exception that bumps the skipped counter. -/
inductive ItemOutcome where
  | record (p : Product)
  | skipQuiet
  | skipCounted
deriving DecidableEq, Repr

/-- The body of the per-element loop of _scrape_products_on_current_page.
A failed title or link lookup (both selector fallbacks absent) raises
NoSuchElementException, caught by the outer except as skipCounted; an
empty title, falsy href or missing price reaches a continue statement
without touching the counter. -/
def processElement (pageNumber idx : Nat) (e : ProductElement) : ItemOutcome :=
  match e.titleH2Span.or e.titleH2 with
  | none => .skipCounted
  | some titleElem =>
    match e.linkStyled.or e.linkNormal with
    | none => .skipCounted
    | some linkElem =>
      let title := pyStrip titleElem.text
      let productUrl := linkElem.href
      if title = "" ∨ ¬ optStrTruthy productUrl then
        .skipQuiet
      else
        match parsePriceBlock e with
        | none => .skipQuiet
        | some (price, currency) =>
          if price = "" then
            .skipQuiet
          else
            .record
              { title := title
                url := productUrl.getD ""
                price := price
                currency := currency
                page := pageNumber
                position := idx }

/-- The enumerate loop of _scrape_products_on_current_page, carrying the
1-based enumeration index; returns the records in document order together
with the skipped-due-to-errors counter. -/
def scrapeAux (pageNumber : Nat) : Nat → List ProductElement → List Product × Nat
  | _, [] => ([], 0)
  | idx, e :: rest =>
    let tailResult := scrapeAux pageNumber (idx + 1) rest
    match processElement pageNumber idx e with
    | .record p => (p :: tailResult.1, tailResult.2)
    | .skipQuiet => tailResult
    | .skipCounted => (tailResult.1, tailResult.2 + 1)

/-- Models _scrape_products_on_current_page: the elements found on the
loaded page are scraped in document order starting at position 1. -/
def scrapeProductsOnCurrentPage (elements : List ProductElement) (pageNumber : Nat) :
    List Product × Nat :=
  scrapeAux pageNumber 1 elements

/-- Models _apply_filters of main.py over rational prices. -/
def applyFilters (products : List Product) (minPrice maxPrice : Option ℚ)
    (titleContains : Option String) : List Product :=
  if minPrice = none ∧ maxPrice = none ∧ ¬ optStrTruthy titleContains then
    products
  else
    let query : Option String :=
      match titleContains with
      | some s => if s ≠ "" then some (pyLower s) else none
      | none => none
    products.filter (fun product =>
      -- title filter
      (match query with
       | some q => strContains (pyLower product.title) q
       | none => true) &&
      -- price parse; ValueError means the record is dropped
      (match pyFloat? product.price with
       | none => false
       | some value =>
         -- price range filter
         (match minPrice with
          | some m => !(value < m)
          | none => true) &&
         (match maxPrice with
          | some m => !(value > m)
          | none => true)))

/-- The browser during one scrape run, reduced to what the aggregation
loop observes: for each value of the page counter, the product-container
elements found on the page then loaded, and whether _go_to_next_page
succeeds from it (an enabled next button exists). -/
structure World where
  pageElements : Nat → List ProductElement
  hasNext : Nat → Bool

/-- The stop test max_products is not None and the accumulator has
reached it. -/
def maxProductsReached (maxProducts : Option Nat) (collected : Nat) : Bool :=
  match maxProducts with
  | some m => decide (m ≤ collected)
  | none => false

/-- The while-True loop of scrape_amazon_prices, from a given page counter
and accumulator.  Returns the accumulated records and the number of
page-scrape cycles performed.  Termination: the recursive branch requires
the counter to be below maxPages and increments it. -/
def aggLoop (world : World) (maxPages : Nat) (maxProducts : Option Nat)
    (minPrice maxPrice : Option ℚ) (titleContains : Option String)
    (currentPage : Nat) (acc : List Product) : List Product × Nat :=
  let pageProducts := (scrapeProductsOnCurrentPage (world.pageElements currentPage) currentPage).1
  let filteredPage := applyFilters pageProducts minPrice maxPrice titleContains
  let acc2 := acc ++ filteredPage
  if maxProductsReached maxProducts acc2.length then
    (acc2.take (maxProducts.getD 0), 1)
  else if _h : maxPages ≤ currentPage then
    (acc2, 1)
  else if world.hasNext currentPage = false then
    (acc2, 1)
  else
    let r := aggLoop world maxPages maxProducts minPrice maxPrice titleContains
      (currentPage + 1) acc2
    (r.1, r.2 + 1)
termination_by maxPages - currentPage
decreasing_by omega

/-- Models scrape_amazon_prices: the loop starts with page counter 1 and
an empty accumulator; the returned pair is the final record list and the
number of page-scrape cycles. -/
def scrapeAmazonPrices (world : World) (maxPages : Nat) (maxProducts : Option Nat)
    (minPrice maxPrice : Option ℚ) (titleContains : Option String) :
    List Product × Nat :=
  aggLoop world maxPages maxProducts minPrice maxPrice titleContains 1 []

/-!  Spec-side predicates for the Filter Engine, written from the words of
section 4.3 of the specification, to be compared with applyFilters. -/

/-- Spec-side: the title passes the optional case-insensitive substring
predicate; an absent or empty query is vacuously true. -/
def titleMatchOk (titleContains : Option String) (p : Product) : Bool :=
  match titleContains with
  | none => true
  | some s => if s = "" then true else strContains (pyLower p.title) (pyLower s)

/-- Spec-side: the price string parses as a decimal number. -/
def priceParses (p : Product) : Bool :=
  (pyFloat? p.price).isSome

/-- Spec-side: the parsed price meets the optional lower bound. -/
def minPriceOk (minPrice : Option ℚ) (p : Product) : Bool :=
  match minPrice, pyFloat? p.price with
  | some m, some v => decide (m ≤ v)
  | some _, none => false
  | none, _ => true

/-- Spec-side: the parsed price meets the optional upper bound. -/
def maxPriceOk (maxPrice : Option ℚ) (p : Product) : Bool :=
  match maxPrice, pyFloat? p.price with
  | some b, some v => decide (v ≤ b)
  | some _, none => false
  | none, _ => true

/-- Spec-side conjunction of the supplied predicates, together with the
defensive requirement that the price parses. -/
def keepRecord (minPrice maxPrice : Option ℚ) (titleContains : Option String)
    (p : Product) : Bool :=
  titleMatchOk titleContains p && priceParses p && minPriceOk minPrice p &&
    maxPriceOk maxPrice p

/-!  Concrete fixtures, mirroring the three listings of the repository's
sample page: two priced products and one listing without a price element. -/

/-- Fixture listing 1: offscreen price, plus a competing whole and
fraction pair that derives a different price than the offscreen string. -/
def fixtureElem1 : ProductElement :=
  ⟨some ⟨some ⟨"$19.99"⟩, some ⟨"29"⟩, some ⟨"99"⟩, some ⟨"$"⟩⟩,
   "Sample Product 1 $19.99",
   some ⟨"Sample Product 1"⟩, none,
   some ⟨some "https://www.example.com/product-1"⟩, none⟩

/-- Fixture listing 2: no offscreen span, price from the whole and
fraction pair with a currency-symbol child. -/
def fixtureElem2 : ProductElement :=
  ⟨some ⟨none, some ⟨"42"⟩, some ⟨"50"⟩, some ⟨"$"⟩⟩,
   "Sample Product 2 $42.50",
   some ⟨"Sample Product 2"⟩, none,
   some ⟨some "https://www.example.com/product-2"⟩, none⟩

/-- Fixture listing 3: title and link extract fine but there is no price
container at all, and the visible text carries no price pattern. -/
def fixtureElem3 : ProductElement :=
  ⟨none, "Sample Product 3 currently unavailable",
   some ⟨"Sample Product 3"⟩, none,
   some ⟨some "https://www.example.com/product-3"⟩, none⟩

/-- A container whose price container is present but empty of the offscreen
and whole and fraction children, while the visible text does carry a
regex-matchable price. -/
def regexOnlyElem : ProductElement :=
  ⟨some ⟨none, none, none, none⟩,
   "Deal price $19.99 today",
   some ⟨"Deal Product"⟩, none,
   some ⟨some "https://www.example.com/deal"⟩, none⟩

/-- A container with the whole and fraction pair but no currency-symbol
child, so the parser falls through to the regex over the visible text. -/
def symbolMissingElem : ProductElement :=
  ⟨some ⟨none, some ⟨"19"⟩, some ⟨"99"⟩, none⟩,
   "Bargain widget $19.99",
   some ⟨"Bargain widget"⟩, none,
   some ⟨some "https://www.example.com/bargain"⟩, none⟩

/-- A record whose title matches the query alpha but whose price string
does not parse as a number. -/
def badPriceRecord : Product :=
  ⟨"alpha mouse", "https://www.example.com/alpha", "notanumber", "$", 1, 1⟩

/-- The fixture page served for every page index, with the next button
always enabled. -/
def fixtureWorld : World :=
  ⟨fun _ => [fixtureElem1, fixtureElem2, fixtureElem3], fun _ => true⟩

/-!  Theorems about the Filter Engine. -/

/-- Helper: the Filter Engine output is always a sublist of its input. -/
theorem applyFilters_sublist (xs : List Product) (mn mx : Option ℚ) (q : Option String) :
    (applyFilters xs mn mx q).Sublist xs := by
  unfold applyFilters
  split
  · exact List.Sublist.refl xs
  · exact List.filter_sublist xs

/-- C8: applying the Filter Engine with no predicates supplied returns the
input list itself, hence a sequence element-wise equal to the input; the
model is a pure function, so the input list is not mutated. -/
theorem C8_no_predicates_identity : ∀ (xs : List Product),
    applyFilters xs none none none = xs := by
  intro xs
  simp [applyFilters, optStrTruthy]

/-- C10: for every input list and every predicate combination the Filter
Engine output is a sublist of the input: every output record occurs in the
input, no more often than there, and in the same relative order. -/
theorem C10_output_sublist : ∀ (xs : List Product) (mn mx : Option ℚ) (q : Option String),
    (applyFilters xs mn mx q).Sublist xs :=
  fun xs mn mx q => applyFilters_sublist xs mn mx q

/-- Helper: intersecting two filters of one list is filtering by the
conjunction of the predicates. -/
theorem filter_inter_filter {α : Type} [DecidableEq α] (xs : List α) (p q : α → Bool) :
    (xs.filter p).inter (xs.filter q) = xs.filter (fun x => p x && q x) := by
  have h1 : (xs.filter p).inter (xs.filter q) =
      (xs.filter p).filter (fun x => decide (x ∈ xs.filter q)) := by
    simp [List.inter]
  rw [h1, List.filter_filter]
  apply List.filter_congr
  intro a ha
  have hq : decide (a ∈ xs.filter q) = q a := by simp [List.mem_filter, ha]
  rw [hq, Bool.and_comm]

/-- Helper: intersecting a sublist with the ambient list changes nothing. -/
theorem inter_self_of_sublist {α : Type} [DecidableEq α] (l xs : List α) (h : l.Sublist xs) :
    l.inter xs = l := by
  have h1 : l.inter xs = l.filter (fun x => decide (x ∈ xs)) := by simp [List.inter]
  rw [h1]
  apply List.filter_eq_self.2
  intro a ha
  simp [h.mem ha]

/-- C7: filtering with both min price and title query supplied equals the
intersection of filtering with the min price alone and filtering with the
title query alone, with multiplicity and order taken from the former. -/
theorem C7_and_composition : ∀ (xs : List Product) (m : ℚ) (q : String),
    applyFilters xs (some m) none (some q) =
      (applyFilters xs (some m) none none).inter (applyFilters xs none none (some q)) := by
  intro xs m q
  by_cases hq : q = ""
  · subst hq
    have h2 : applyFilters xs none none (some "") = xs := by
      simp [applyFilters, optStrTruthy]
    have h1 : applyFilters xs (some m) none (some "") = applyFilters xs (some m) none none := by
      simp [applyFilters, optStrTruthy]
    rw [h2, h1, inter_self_of_sublist _ _ (applyFilters_sublist xs (some m) none none)]
  · have hL : applyFilters xs (some m) none (some q) =
        xs.filter (fun p => strContains (pyLower p.title) (pyLower q) &&
          (match pyFloat? p.price with
           | none => false
           | some v => !(v < m))) := by
      simp [applyFilters, optStrTruthy, hq]
    have hM : applyFilters xs (some m) none none =
        xs.filter (fun p =>
          (match pyFloat? p.price with
           | none => false
           | some v => !(v < m))) := by
      simp [applyFilters, optStrTruthy]
    have hT : applyFilters xs none none (some q) =
        xs.filter (fun p => strContains (pyLower p.title) (pyLower q) &&
          (match pyFloat? p.price with
           | none => false
           | some _ => true)) := by
      simp [applyFilters, optStrTruthy, hq]
    rw [hL, hM, hT, filter_inter_filter]
    apply List.filter_congr
    intro a _
    cases hv : pyFloat? a.price with
    | none => simp
    | some v => cases hc : strContains (pyLower a.title) (pyLower q) <;> simp

/-- Helper: deciding a lower bound is the negation of deciding the strict
reverse comparison. -/
theorem decide_le_eq_not_lt (a b : ℚ) : (decide (a ≤ b)) = !(decide (b < a)) := by
  rw [← decide_not]
  exact decide_eq_decide.2 not_lt.symm

/-- C6 counterexample: with only a title query supplied, a record whose
title does contain the query case-insensitively is nevertheless dropped,
because its price string does not parse as a number; the claim as stated
would keep it. -/
theorem C6_counterexample :
    strContains (pyLower badPriceRecord.title) (pyLower "alpha") = true ∧
    applyFilters [badPriceRecord] none none (some "alpha") = [] := by
  constructor
  · decide
  · decide

/-- C6 amended: whenever at least one predicate is supplied, the Filter
Engine returns exactly the records that satisfy all supplied predicates
under AND semantics, absent predicates vacuously true, and whose price
string parses as a decimal number; in particular with only a title query a
record is kept iff its title contains the query case-insensitively and its
price parses. -/
theorem C6_amended_and_semantics (xs : List Product) (mn mx : Option ℚ) (q : Option String)
    (h : ¬ (mn = none ∧ mx = none ∧ ¬ optStrTruthy q)) :
    applyFilters xs mn mx q = xs.filter (keepRecord mn mx q) := by
  unfold applyFilters
  rw [if_neg h]
  rcases q with _ | s
  · apply List.filter_congr
    intro p _
    unfold keepRecord titleMatchOk priceParses minPriceOk maxPriceOk
    cases hv : pyFloat? p.price with
    | none => cases mn <;> cases mx <;> simp [hv]
    | some v => cases mn <;> cases mx <;> simp [hv, decide_le_eq_not_lt, gt_iff_lt]
  · by_cases hs : s = ""
    · subst hs
      apply List.filter_congr
      intro p _
      unfold keepRecord titleMatchOk priceParses minPriceOk maxPriceOk
      cases hv : pyFloat? p.price with
      | none => cases mn <;> cases mx <;> simp [hv]
      | some v => cases mn <;> cases mx <;> simp [hv, decide_le_eq_not_lt, gt_iff_lt]
    · apply List.filter_congr
      intro p _
      unfold keepRecord titleMatchOk priceParses minPriceOk maxPriceOk
      cases hv : pyFloat? p.price with
      | none => cases mn <;> cases mx <;> simp [hv, hs]
      | some v =>
        cases mn <;> cases mx <;>
          cases hc : strContains (pyLower p.title) (pyLower s) <;>
            simp [hv, hs, hc, decide_le_eq_not_lt, gt_iff_lt]

/-- C6 amended, witnessed at a concrete input: a one-record list with a
lower bound supplied. -/
theorem C6_amended_witness :
    applyFilters [badPriceRecord] (some 1) none none =
      List.filter (keepRecord (some 1) none none) [badPriceRecord] := by
  exact C6_amended_and_semantics [badPriceRecord] (some 1) none none (by decide)

/-!  Theorems about the Field Extractor. -/

/-- C5: when the container has a non-empty offscreen price string, the
extractor returns the pair derived from it — first character as currency,
remainder stripped and de-commaed as the numeric string — even though the
whole and fraction sub-elements are both present; the result does not
mention them. -/
theorem C5_offscreen_priority (e : ProductElement) (pc : PriceContainer) (os w f : Elem)
    (c : Char) (rest : List Char)
    (hpc : e.priceContainer = some pc) (hos : pc.offscreen = some os)
    (hchars : (pyStrip os.text).toList = c :: rest)
    (_hw : pc.wholePart = some w) (_hf : pc.fractionPart = some f) :
    parsePriceBlock e = some (removeCommas (pyStrip (String.mk rest)), String.mk [c]) := by
  have hoff : (offscreenTextOf pc).toList = c :: rest := by
    unfold offscreenTextOf
    rw [hos]
    exact hchars
  simp only [parsePriceBlock, hpc, hoff]

/-- C5 witnessed on fixture listing 1, where the offscreen string gives
19.99 while the competing whole and fraction pair would give 29.99. -/
theorem C5_offscreen_priority_witness :
    parsePriceBlock fixtureElem1 = some ("19.99", "$") ∧
    pyStrip (removeCommas (⟨"29"⟩ : Elem).text) ++ "." ++ pyStrip (⟨"99"⟩ : Elem).text = "29.99" := by
  constructor
  · have h := C5_offscreen_priority fixtureElem1
      ⟨some ⟨"$19.99"⟩, some ⟨"29"⟩, some ⟨"99"⟩, some ⟨"$"⟩⟩
      ⟨"$19.99"⟩ ⟨"29"⟩ ⟨"99"⟩ '$' ['1', '9', '.', '9', '9']
      rfl rfl (by decide) rfl rfl
    rw [h]
    decide
  · decide

/-- Helper: a one-character string is never empty. -/
theorem stringMk_cons_ne_empty (c : Char) (l : List Char) : String.mk (c :: l) ≠ "" := by
  intro h
  simpa using congrArg String.data h

/-- Helper: every successful exit of the price parser carries a non-empty
currency string: the offscreen first character, the symbol text guarded by
the non-emptiness check, or a matched glyph. -/
theorem parsePriceBlock_currency_ne (e : ProductElement) (pr cu : String)
    (h : parsePriceBlock e = some (pr, cu)) : cu ≠ "" := by
  unfold parsePriceBlock at h
  dsimp only at h
  split at h
  · exact absurd h (by simp)
  · split at h
    · rename_i c restChars heq
      simp only [Option.some.injEq, Prod.mk.injEq] at h
      rw [← h.2]
      exact stringMk_cons_ne_empty c []
    · split at h
      · rename_i w f hw hf
        split at h
        · rename_i hguard
          simp only [Option.some.injEq, Prod.mk.injEq] at h
          rw [← h.2]
          exact hguard.2
        · split at h
          · rename_i glyph numeric hsearch
            simp only [Option.some.injEq, Prod.mk.injEq] at h
            rw [← h.2]
            exact stringMk_cons_ne_empty glyph []
          · exact absurd h (by simp)
      · exact absurd h (by simp)

/-- Helper: a record produced by the per-element loop body inherits its
currency from a successful price parse, hence it is non-empty. -/
theorem processElement_record_currency (page idx : Nat) (e : ProductElement) (p : Product)
    (h : processElement page idx e = .record p) : p.currency ≠ "" := by
  unfold processElement at h
  split at h
  · exact absurd h (by simp)
  · split at h
    · exact absurd h (by simp)
    · dsimp only at h
      split at h
      · exact absurd h (by simp)
      · split at h
        · exact absurd h (by simp)
        · rename_i price currency hparse
          split at h
          · exact absurd h (by simp)
          · simp only [ItemOutcome.record.injEq] at h
            have hc : p.currency = currency := by rw [← h]
            rw [hc]
            exact parsePriceBlock_currency_ne e price currency hparse

/-- Helper: every record collected by the scrape loop has a non-empty
currency. -/
theorem scrapeAux_currency_ne : ∀ (elems : List ProductElement) (page idx : Nat)
    (p : Product), p ∈ (scrapeAux page idx elems).1 → p.currency ≠ "" := by
  intro elems
  induction elems with
  | nil =>
    intro page idx p hp
    simp [scrapeAux] at hp
  | cons e rest ih =>
    intro page idx p hp
    rw [scrapeAux] at hp
    try dsimp only at hp
    split at hp
    · rename_i q hq
      rcases List.mem_cons.1 hp with h1 | h2
      · subst h1
        exact processElement_record_currency page idx e p hq
      · exact ih page (idx + 1) p h2
    · exact ih page (idx + 1) p hp
    · exact ih page (idx + 1) p hp

/-- C9: every record emitted by the Page Scraper has a non-empty currency
string; no record with an empty currency is ever constructed. -/
theorem C9_currency_nonempty : ∀ (elems : List ProductElement) (pageNumber : Nat) (p : Product),
    p ∈ (scrapeProductsOnCurrentPage elems pageNumber).1 → p.currency ≠ "" := by
  intro elems pageNumber p hp
  exact scrapeAux_currency_ne elems pageNumber 1 p hp

/-- C9 witnessed on fixture listing 1. -/
theorem C9_currency_nonempty_witness :
    (⟨"Sample Product 1", "https://www.example.com/product-1", "19.99", "$", 1, 1⟩ : Product).currency ≠ "" :=
  C9_currency_nonempty [fixtureElem1] 1 _ (by decide)

/-- C2 counterexample: a container whose price container is present and
empty of the offscreen and whole and fraction children, while its visible
text does match the price regex; the claim says the regex fallback is
still attempted and its match returned, yet the extractor returns no
price at all. -/
theorem C2_counterexample :
    searchPrice regexOnlyElem.fullText.toList = some ('$', ['1', '9', '.', '9', '9']) ∧
    parsePriceBlock regexOnlyElem = none := by
  constructor
  · decide
  · decide

/-- C2 amended: with the price container present and the offscreen string
absent or empty, the regex fallback is reached only when the whole and
fraction pair is both present and the currency-symbol check fails; when
the pair is not both present the extractor fails immediately without
consulting the regex, and when the regex branch is reached and matches,
the first match's glyph and comma-stripped numeric string are returned. -/
theorem C2_amended_regex_reach (e : ProductElement) (pc : PriceContainer)
    (hpc : e.priceContainer = some pc) (hoff : offscreenTextOf pc = "") :
    (¬ (pc.wholePart.isSome ∧ pc.fractionPart.isSome) → parsePriceBlock e = none) ∧
    (∀ w f g numeric, pc.wholePart = some w → pc.fractionPart = some f →
      symbolTextOf pc = "" →
      searchPrice e.fullText.toList = some (g, numeric) →
      parsePriceBlock e = some (removeCommas (String.mk numeric), String.mk [g])) := by
  have hofl : (offscreenTextOf pc).toList = [] := by rw [hoff]; decide
  constructor
  · intro hnot
    rcases hw : pc.wholePart with _ | w
    · simp only [parsePriceBlock, hpc, hofl, hw]
    · rcases hf : pc.fractionPart with _ | f
      · simp only [parsePriceBlock, hpc, hofl, hw, hf]
      · exact absurd ⟨by rw [hw]; rfl, by rw [hf]; rfl⟩ hnot
  · intro w f g numeric hw hf hsym hsearch
    simp only [parsePriceBlock, hpc, hofl, hw, hf, hsym, hsearch]
    simp

/-- C2 amended, witnessed: the empty container falls through to none, and
a container with the pair but no symbol reaches the regex and returns its
match. -/
theorem C2_amended_witness :
    parsePriceBlock regexOnlyElem = none ∧
    parsePriceBlock symbolMissingElem = some ("19.99", "$") := by
  constructor
  · exact (C2_amended_regex_reach regexOnlyElem ⟨none, none, none, none⟩ rfl rfl).1 (by decide)
  · have h := (C2_amended_regex_reach symbolMissingElem ⟨none, some ⟨"19"⟩, some ⟨"99"⟩, none⟩ rfl rfl).2
      ⟨"19"⟩ ⟨"99"⟩ '$' ['1', '9', '.', '9', '9'] rfl rfl rfl (by decide)
    rw [h]
    decide

/-!  Theorems about the Page Scraper loop. -/

/-- C1 counterexample: fixture listing 3 extracts a title and a link but
has no price source at all; it yields no record, yet the skip counter
stays at 0 instead of incrementing to 1 as the claim states. -/
theorem C1_counterexample :
    (scrapeProductsOnCurrentPage [fixtureElem3] 1).1 = [] ∧
    (scrapeProductsOnCurrentPage [fixtureElem3] 1).2 ≠ 1 := by
  constructor
  · decide
  · decide

/-- C1 amended: a container whose title and URL extract successfully but
which lacks all price sources yields no record and leaves the skip counter
unchanged; that counter counts only containers that raise an unexpected
exception, and the loop simply moves to the position after this one. -/
theorem C1_amended_silent_skip (e : ProductElement) (tEl : Elem) (lEl : LinkElem)
    (ht : e.titleH2Span.or e.titleH2 = some tEl)
    (hl : e.linkStyled.or e.linkNormal = some lEl)
    (htitle : pyStrip tEl.text ≠ "") (hurl : optStrTruthy lEl.href = true)
    (hoff : ∀ pc, e.priceContainer = some pc → offscreenTextOf pc = "")
    (hwf : ∀ pc, e.priceContainer = some pc → pc.wholePart = none ∨ pc.fractionPart = none)
    (_hre : searchPrice e.fullText.toList = none) :
    ∀ pageNumber idx rest,
      scrapeAux pageNumber idx (e :: rest) = scrapeAux pageNumber (idx + 1) rest := by
  have hparse : parsePriceBlock e = none := by
    rcases hpc : e.priceContainer with _ | pc
    · simp only [parsePriceBlock, hpc]
    · have h1 : (offscreenTextOf pc).toList = [] := by rw [hoff pc hpc]; decide
      rcases hwf pc hpc with hw | hf
      · simp only [parsePriceBlock, hpc, h1, hw]
      · rcases hw' : pc.wholePart with _ | w
        · simp only [parsePriceBlock, hpc, h1, hw']
        · simp only [parsePriceBlock, hpc, h1, hw', hf]
  have hcond : ¬ (pyStrip tEl.text = "" ∨ ¬ optStrTruthy lEl.href = true) := by
    intro hc
    rcases hc with hc | hc
    · exact htitle hc
    · exact hc hurl
  have hpe : ∀ pageNumber idx, processElement pageNumber idx e = .skipQuiet := by
    intro pageNumber idx
    unfold processElement
    rw [ht, hl]
    dsimp only
    rw [if_neg hcond, hparse]
  intro pageNumber idx rest
  rw [scrapeAux]
  simp only [hpe]

/-- C1 amended, witnessed on fixture listing 3 at position 1 of a
one-element page. -/
theorem C1_amended_witness :
    scrapeAux 1 1 [fixtureElem3] = scrapeAux 1 2 [] := by
  exact C1_amended_silent_skip fixtureElem3 ⟨"Sample Product 3"⟩
    ⟨some "https://www.example.com/product-3"⟩ rfl rfl (by decide) (by decide)
    (fun pc hpc => Option.noConfusion hpc)
    (fun pc hpc => Option.noConfusion hpc)
    (by decide) 1 1 []

/-!  Theorems about the Aggregation Loop. -/

/-- Helper: from any page counter not above maxPages, the loop performs at
most maxPages + 1 - counter page-scrape cycles. -/
theorem aggLoop_count_le (world : World) (maxPages : Nat) (mp : Option Nat)
    (mn mx : Option ℚ) (q : Option String) :
    ∀ (fuel currentPage : Nat) (acc : List Product),
      maxPages - currentPage ≤ fuel → currentPage ≤ maxPages →
      (aggLoop world maxPages mp mn mx q currentPage acc).2 ≤ maxPages + 1 - currentPage := by
  intro fuel
  induction fuel with
  | zero =>
    intro currentPage acc hfuel hle
    rw [aggLoop.eq_def]
    dsimp only
    split_ifs with h1 h2 h3
    · simp
      omega
    · simp
      omega
    · simp
      omega
    · exfalso
      omega
  | succ n ih =>
    intro currentPage acc hfuel hle
    rw [aggLoop.eq_def]
    dsimp only
    split_ifs with h1 h2 h3
    · simp
      omega
    · simp
      omega
    · simp
      omega
    · have hrec := ih (currentPage + 1)
        (acc ++ applyFilters (scrapeProductsOnCurrentPage (world.pageElements currentPage) currentPage).1 mn mx q)
        (by omega) (by omega)
      dsimp only
      omega

/-- C3: with max pages N at least 1, the run performs at most N page-scrape
cycles no matter how many has-next signals the pagination reports; the loop
model is a total function, its recursion measured by the page counter's
distance to N, so termination holds by construction. -/
theorem C3_page_cycle_bound (world : World) (N : Nat) (mp : Option Nat)
    (mn mx : Option ℚ) (q : Option String) (hN : 1 ≤ N) :
    (scrapeAmazonPrices world N mp mn mx q).2 ≤ N := by
  have h := aggLoop_count_le world N mp mn mx q N 1 [] (by omega) hN
  unfold scrapeAmazonPrices
  omega

/-- C3 witnessed on the fixture world, whose next button never goes away,
with max pages 3. -/
theorem C3_page_cycle_bound_witness :
    1 ≤ 3 ∧ (scrapeAmazonPrices fixtureWorld 3 none none none none).2 ≤ 3 :=
  ⟨by decide, C3_page_cycle_bound fixtureWorld 3 none none none none (by decide)⟩

/-- Helper: with a product cap m the loop never returns more than m
records: the truncation exit takes m, and every other exit was reached
with the cap check false. -/
theorem aggLoop_length_le (world : World) (maxPages m : Nat)
    (mn mx : Option ℚ) (q : Option String) :
    ∀ (fuel currentPage : Nat) (acc : List Product),
      maxPages - currentPage ≤ fuel →
      ((aggLoop world maxPages (some m) mn mx q currentPage acc).1).length ≤ m := by
  intro fuel
  induction fuel with
  | zero =>
    intro cp acc hfuel
    rw [aggLoop.eq_def]
    dsimp only
    split_ifs with h1 h2 h3
    · simp [List.length_take]
    · simp only [maxProductsReached, decide_eq_true_eq] at h1
      dsimp only
      omega
    · simp only [maxProductsReached, decide_eq_true_eq] at h1
      dsimp only
      omega
    · exfalso
      omega
  | succ n ih =>
    intro cp acc hfuel
    rw [aggLoop.eq_def]
    dsimp only
    split_ifs with h1 h2 h3
    · simp [List.length_take]
    · simp only [maxProductsReached, decide_eq_true_eq] at h1
      dsimp only
      omega
    · simp only [maxProductsReached, decide_eq_true_eq] at h1
      dsimp only
      omega
    · exact ih (cp + 1)
        (acc ++ applyFilters (scrapeProductsOnCurrentPage (world.pageElements cp) cp).1 mn mx q)
        (by omega)

/-- C4: with max products m supplied the returned list never holds more
than m records, and whenever appending a page's filtered records makes the
accumulator reach or pass m, the loop returns exactly the first m of it
and stops with that single cycle. -/
theorem C4_max_products_truncation (world : World) (maxPages m : Nat)
    (mn mx : Option ℚ) (q : Option String) :
    ((scrapeAmazonPrices world maxPages (some m) mn mx q).1).length ≤ m ∧
    (∀ (currentPage : Nat) (acc : List Product),
      m ≤ (acc ++ applyFilters (scrapeProductsOnCurrentPage (world.pageElements currentPage) currentPage).1 mn mx q).length →
      aggLoop world maxPages (some m) mn mx q currentPage acc =
        ((acc ++ applyFilters (scrapeProductsOnCurrentPage (world.pageElements currentPage) currentPage).1 mn mx q).take m, 1) ∧
      ((acc ++ applyFilters (scrapeProductsOnCurrentPage (world.pageElements currentPage) currentPage).1 mn mx q).take m).length = m) := by
  constructor
  · exact aggLoop_length_le world maxPages m mn mx q maxPages 1 [] (by omega)
  · intro cp acc hreach
    constructor
    · rw [aggLoop.eq_def]
      dsimp only
      rw [if_pos (by simp only [maxProductsReached, decide_eq_true_eq]; exact hreach)]
      rfl
    · rw [List.length_take]
      exact Nat.min_eq_left hreach

/-- C4 witnessed on the fixture world with a cap of one product reached on
the first page. -/
theorem C4_max_products_truncation_witness :
    aggLoop fixtureWorld 1 (some 1) none none none 1 [] =
      ((([] : List Product) ++ applyFilters (scrapeProductsOnCurrentPage (fixtureWorld.pageElements 1) 1).1 none none none).take 1, 1) :=
  (((C4_max_products_truncation fixtureWorld 1 1 none none none).2 1 []) (by decide)).1

end Scraper
